import Mathlib

/-!
Shallow embedding of the generic MongoDB CRUD repository
(package `repositorymongo`): field resolution by reflection
(`getIDField`, `getDeletedAtField`, `getNonZeroFields`), the filter
builder with its soft-delete visibility clause (`buildFilter`), and the
CRUD operations of `CrudRepository` with their error normalization and
soft-delete-aware deletion semantics.

Go values appearing in filters and documents are modelled by `BVal`
(the entity types in this repository use `int64` and `string` fields;
`inInts` models a `bson.M` value of shape `$in: ids`).  A Go struct
type together with a concrete instance is modelled as a list of
`StructField`: declared name, raw `bson` and `json` tag strings (the
empty string modelling an absent tag, as returned by `Tag.Get`), and
the current value.  Store interaction is modelled by the `StoreOp`
issued by an operation plus an explicit store response; errors are
`StoreErr` (driver level) and `DomainErr` (after normalization).
-/

namespace RepositoryMongo

/-- Values stored in documents, filters and update documents. -/
inductive BVal where
  | int : Int → BVal
  | str : String → BVal
  | inInts : List Int → BVal
  deriving DecidableEq, Repr

/-- Go `reflect.Value.IsZero` for the value kinds used by the entities of
this repository (`int64` zero is `0`, `string` zero is `""`, a slice is
zero when nil, modelled as the empty list). -/
def isZeroVal : BVal → Bool
  | .int i => i == 0
  | .str s => s == ""
  | .inInts l => l.isEmpty

/-- One declared attribute of an entity struct, with its raw tag strings
and (for instance-level functions) its current value. -/
structure StructField where
  name : String
  bsonTag : String
  jsonTag : String
  value : BVal
  deriving DecidableEq, Repr

/-- An entity shape / instance: the ordered list of its declared fields. -/
abbrev EntityShape := List StructField

/-- Go `reflect.Type.FieldByName` restricted to flat structs: the first
declared field with the given exact name. -/
def fieldByName (fields : EntityShape) (n : String) : Option StructField :=
  fields.find? (fun f => f.name == n)

/-- Go `strings.Split(s, ",")[0]`: the prefix of `s` before its first
comma, or all of `s` when it has no comma. -/
def firstCommaComponent (s : String) : String :=
  String.mk (s.data.takeWhile (fun ch => ch ≠ ','))

/-- Tag selection shared by `getIDField` and `getDeletedAtField`:
take the `bson` tag, fall back to the `json` tag; if the chosen tag is
nonempty return its first comma-separated component
(`strings.Split(tag, ",")[0]` in the source), else the given default
name. -/
def resolveTag (bsonTag jsonTag dflt : String) : String :=
  let tag := if bsonTag ≠ "" then bsonTag else jsonTag
  if tag ≠ "" then firstCommaComponent tag else dflt

/-- Source `getIDField`: locate field `ID`, else `Id`; panic (modelled as
`none`) when neither exists; resolve the storage name bson-tag-first,
json-tag-second, defaulting to `_id`. -/
def getIDField (fields : EntityShape) : Option String :=
  match fieldByName fields "ID" with
  | some field => some (resolveTag field.bsonTag field.jsonTag "_id")
  | none =>
    match fieldByName fields "Id" with
    | some field => some (resolveTag field.bsonTag field.jsonTag "_id")
    | none => none

/-- Source `getDeletedAtField`: locate field `DeletedAt`; absent means
the feature is disabled (empty string, not an error); otherwise resolve
the storage name with the same tag rule, defaulting to `deleted_at`. -/
def getDeletedAtField (fields : EntityShape) : String :=
  match fieldByName fields "DeletedAt" with
  | some field => resolveTag field.bsonTag field.jsonTag "deleted_at"
  | none => ""

/-- Key/value list standing for a Go `bson.M` built by inserting keys in
order with replacement (map semantics: assigning an existing key
overwrites its value, a new key is appended). -/
def upsert : List (String × BVal) → String → BVal → List (String × BVal)
  | [], k, v => [(k, v)]
  | kv :: rest, k, v =>
    if kv.1 = k then (k, v) :: rest else kv :: upsert rest k v

/-- Lookup in a key/value list modelling a `bson.M`. -/
def lookupKV (l : List (String × BVal)) (k : String) : Option BVal :=
  (l.find? (fun kv => kv.1 == k)).map (fun kv => kv.2)

/-- Source `getNonZeroFields`: iterate the declared fields in order and
insert every field whose current value is non-zero into a `bson.M`,
keyed by bson tag, else json tag, else the declared field name, in each
case truncated at the first comma. -/
def fieldStorageName (f : StructField) : String :=
  let fieldName :=
    if f.bsonTag ≠ "" then f.bsonTag
    else if f.jsonTag ≠ "" then f.jsonTag
    else f.name
  firstCommaComponent fieldName

/-- Loop body of `getNonZeroFields`: insert field `f` into the `bson.M`
under construction exactly when its current value is non-zero. -/
def insertNonZero (result : List (String × BVal)) (f : StructField) :
    List (String × BVal) :=
  if !(isZeroVal f.value) then upsert result (fieldStorageName f) f.value
  else result

def getNonZeroFields (fields : EntityShape) : List (String × BVal) :=
  fields.foldl insertNonZero []

/-- One entry of a native `bson.D` filter: either a caller key/value
pair copied verbatim, or the soft-delete visibility clause
`$or: [ f equals 0, f does not exist ]` appended by `buildFilter`
(the field name `f` is recorded explicitly so the clause can be
compared with the repository's resolved soft-delete field). -/
inductive FilterEntry where
  | entry : String → BVal → FilterEntry
  | orSoftDelete : String → FilterEntry
  deriving DecidableEq, Repr

/-- The repository state: the collection handle (an opaque identifier),
the scope flag and the resolved field configuration. -/
structure CrudRepository where
  collection : Nat
  unscoped : Bool
  idField : String
  softDeleteField : String
  softDeleteEnabled : Bool
  deriving DecidableEq, Repr

/-- Source `NewCrudRepository`: resolve the soft-delete field and the
identifier field from the entity shape; a missing `ID`/`Id` field
panics inside `getIDField`, so no repository value is produced
(modelled as `none`).  The scope flag starts out false (scoped). -/
def NewCrudRepository (collection : Nat) (shape : EntityShape) :
    Option CrudRepository :=
  let softDeleteField := getDeletedAtField shape
  match getIDField shape with
  | none => none
  | some idField =>
    some { collection := collection
           unscoped := false
           idField := idField
           softDeleteField := softDeleteField
           softDeleteEnabled := softDeleteField != "" }

/-- Source `clone`: a field-by-field copy of the receiver. -/
def clone (c : CrudRepository) : CrudRepository :=
  { collection := c.collection
    unscoped := c.unscoped
    idField := c.idField
    softDeleteField := c.softDeleteField
    softDeleteEnabled := c.softDeleteEnabled }

/-- Source `IsUnscoped`. -/
def IsUnscoped (c : CrudRepository) : Bool := c.unscoped

/-- Source `Unscoped`: clone the receiver and set the scope flag on the
clone; the receiver itself is returned untouched. -/
def Unscoped (c : CrudRepository) : CrudRepository :=
  let cc := clone c
  { cc with unscoped := true }

/-- Source `IDField`. -/
def IDField (c : CrudRepository) : String := c.idField

/-- Source `SoftDeleteField`. -/
def SoftDeleteField (c : CrudRepository) : String := c.softDeleteField

/-- Source `SoftDeleteEnabled`. -/
def SoftDeleteEnabled (c : CrudRepository) : Bool := c.softDeleteEnabled

/-- Source `buildFilter`: copy every caller key/value pair into the
native filter, then, when soft delete is enabled and the repository is
scoped, append the clause
`$or: [ deleted_at equals 0, deleted_at does not exist ]`.
The source hardcodes the literal field name `"deleted_at"` here; it
does not use `c.softDeleteField`. -/
def buildFilter (c : CrudRepository) (filter : List (String × BVal)) :
    List FilterEntry :=
  let d := filter.map (fun kv => FilterEntry.entry kv.1 kv.2)
  if c.softDeleteEnabled && !c.unscoped then
    d ++ [FilterEntry.orSoftDelete "deleted_at"]
  else
    d

/-- A stored document: a flat field-name/value record. -/
abbrev Doc := List (String × BVal)

/-- Mongo match semantics for one filter entry against one document:
a plain pair matches by equality (an `$in` list value matches when the
stored value is an integer in the list); the soft-delete clause matches
when the named field equals integer `0` or is absent. -/
def matchEntry (doc : Doc) : FilterEntry → Bool
  | .entry k (.inInts ids) =>
    match lookupKV doc k with
    | some (.int i) => ids.contains i
    | _ => false
  | .entry k v => lookupKV doc k == some v
  | .orSoftDelete f =>
    lookupKV doc f == some (BVal.int 0) || (lookupKV doc f).isNone

/-- A document matches a `bson.D` filter when it matches every entry
(entries are combined by logical AND). -/
def matchFilter (doc : Doc) (fl : List FilterEntry) : Bool :=
  fl.all (matchEntry doc)

/-- Mongo `$set` semantics: write each key of the update document into
the stored document, replacing an existing field or appending. -/
def applySet (doc : Doc) (data : List (String × BVal)) : Doc :=
  data.foldl (fun d kv => upsert d kv.1 kv.2) doc

/-- Effect of an `UpdateMany ... $set` on a single stored document. -/
def updateDoc (doc : Doc) (fl : List FilterEntry)
    (data : List (String × BVal)) : Doc :=
  if matchFilter doc fl then applySet doc data else doc

/-- Effect of an `UpdateMany ... $set` on a whole store. -/
def updateManyStore (store : List Doc) (fl : List FilterEntry)
    (data : List (String × BVal)) : List Doc :=
  store.map (fun doc => updateDoc doc fl data)

/-- Driver-level errors distinguished by the source: `mongo.ErrNoDocuments`,
a duplicate-key write error, and any other failure (tagged by a code). -/
inductive StoreErr where
  | noDocuments
  | duplicateKey
  | other : Nat → StoreErr
  deriving DecidableEq, Repr

/-- Domain errors after normalization.  Each constructor records the
driver error it wraps, since `ErrNotFound.WrapStack(err)`,
`ErrDuplicatedKey.WrapStack(err)` and `errors.WithStack(err)` all keep
the cause reachable by `errors.Is`. -/
inductive DomainErr where
  | notFound : StoreErr → DomainErr
  | duplicatedKey : StoreErr → DomainErr
  | wrapped : StoreErr → DomainErr
  deriving DecidableEq, Repr

/-- The driver error wrapped inside a domain error: `errors.Is` against
the underlying cause succeeds exactly on this error. -/
def causeOf : DomainErr → StoreErr
  | .notFound e => e
  | .duplicatedKey e => e
  | .wrapped e => e

/-- The single store call an operation issues: filters are the marshalled
`bson.D`; the `deleteOne`/`deleteMany` filter is whatever document the
operation passed (the delete branches pass the caller's raw map). -/
inductive StoreOp where
  | insertOne : Doc → StoreOp
  | findOne : List FilterEntry → StoreOp
  | findMany : List FilterEntry → StoreOp
  | updateOne : List FilterEntry → List (String × BVal) → StoreOp
  | updateMany : List FilterEntry → List (String × BVal) → StoreOp
  | deleteOne : List FilterEntry → StoreOp
  | deleteMany : List FilterEntry → StoreOp
  deriving DecidableEq, Repr

/-- Marshalling of a caller's raw `map[string]any` filter when it is
handed to the driver directly, without `buildFilter`. -/
def rawFilter (filter : List (String × BVal)) : List FilterEntry :=
  filter.map (fun kv => FilterEntry.entry kv.1 kv.2)

/-- Result of `errors.Check(errors.WithStack(err))` on a store response
that is not special-cased: success passes through, any failure is
returned wrapped. -/
def execResult : Option StoreErr → Except DomainErr Unit
  | none => Except.ok ()
  | some e => Except.error (DomainErr.wrapped e)

/-- Source `Create`: insert the entity; a duplicate-key driver error
becomes `ErrDuplicatedKey` wrapping the cause, any other failure is
wrapped generically; on success the inserted identifier is returned. -/
def Create (c : CrudRepository) (entity : Doc)
    (resp : Except StoreErr Int) :
    List StoreOp × Except DomainErr Int :=
  ([StoreOp.insertOne entity],
   match resp with
   | .ok id => Except.ok id
   | .error e =>
     if e = StoreErr.duplicateKey then Except.error (DomainErr.duplicatedKey e)
     else Except.error (DomainErr.wrapped e))

/-- Source `FindOne`: query with the scoped filter; `mongo.ErrNoDocuments`
becomes `ErrNotFound` wrapping the cause, any other failure is wrapped. -/
def FindOne (c : CrudRepository) (filter : List (String × BVal))
    (resp : Except StoreErr Doc) :
    List StoreOp × Except DomainErr Doc :=
  ([StoreOp.findOne (buildFilter c filter)],
   match resp with
   | .ok d => Except.ok d
   | .error e =>
     if e = StoreErr.noDocuments then Except.error (DomainErr.notFound e)
     else Except.error (DomainErr.wrapped e))

/-- Source `FindByID`: `FindOne` semantics on the filter `idField: id`. -/
def FindByID (c : CrudRepository) (id : Int)
    (resp : Except StoreErr Doc) :
    List StoreOp × Except DomainErr Doc :=
  ([StoreOp.findOne (buildFilter c [(c.idField, BVal.int id)])],
   match resp with
   | .ok d => Except.ok d
   | .error e =>
     if e = StoreErr.noDocuments then Except.error (DomainErr.notFound e)
     else Except.error (DomainErr.wrapped e))

/-- Source `FindByIDs`: an empty identifier slice short-circuits to an
empty collection with no store call; otherwise a membership query
`idField $in ids` under the scoped filter, failures wrapped. -/
def FindByIDs (c : CrudRepository) (ids : List Int)
    (resp : Except StoreErr (List Doc)) :
    List StoreOp × Except DomainErr (List Doc) :=
  if ids = [] then ([], Except.ok [])
  else
    ([StoreOp.findMany (buildFilter c [(c.idField, BVal.inInts ids)])],
     match resp with
     | .ok docs => Except.ok docs
     | .error e => Except.error (DomainErr.wrapped e))

/-- Source `Exists`: probe with the scoped filter (projecting the id
field); `mongo.ErrNoDocuments` is translated to `false` with no error,
success to `true`, any other failure is wrapped. -/
def Exists (c : CrudRepository) (filter : List (String × BVal))
    (resp : Option StoreErr) :
    List StoreOp × Except DomainErr Bool :=
  ([StoreOp.findOne (buildFilter c filter)],
   match resp with
   | some e =>
     if e = StoreErr.noDocuments then Except.ok false
     else Except.error (DomainErr.wrapped e)
   | none => Except.ok true)

/-- Source `ExistsByID`: `Exists` semantics on the filter `idField: id`. -/
def ExistsByID (c : CrudRepository) (id : Int)
    (resp : Option StoreErr) :
    List StoreOp × Except DomainErr Bool :=
  ([StoreOp.findOne (buildFilter c [(c.idField, BVal.int id)])],
   match resp with
   | some e =>
     if e = StoreErr.noDocuments then Except.ok false
     else Except.error (DomainErr.wrapped e)
   | none => Except.ok true)

/-- Source `ExistsByIDs`: an empty identifier slice short-circuits to an
empty dict with no store call; otherwise each decoded entity's
identifier is marked `true` in the dict. -/
def ExistsByIDs (c : CrudRepository) (ids : List Int)
    (resp : Except StoreErr (List Doc)) :
    List StoreOp × Except DomainErr (List (Int × Bool)) :=
  if ids = [] then ([], Except.ok [])
  else
    ([StoreOp.findMany (buildFilter c [(c.idField, BVal.inInts ids)])],
     match resp with
     | .ok docs =>
       Except.ok (docs.filterMap (fun d =>
         match lookupKV d c.idField with
         | some (.int i) => some (i, true)
         | _ => none))
     | .error e => Except.error (DomainErr.wrapped e))

/-- Source `Update`: `UpdateMany` with the scoped filter and a `$set` of
the caller's data, used as-is. -/
def Update (c : CrudRepository) (filter : List (String × BVal))
    (data : List (String × BVal)) (resp : Option StoreErr) :
    List StoreOp × Except DomainErr Unit :=
  ([StoreOp.updateMany (buildFilter c filter) data], execResult resp)

/-- Source `UpdateByID`: `UpdateOne` with the scoped filter `idField: id`. -/
def UpdateByID (c : CrudRepository) (id : Int)
    (data : List (String × BVal)) (resp : Option StoreErr) :
    List StoreOp × Except DomainErr Unit :=
  ([StoreOp.updateOne (buildFilter c [(c.idField, BVal.int id)]) data],
   execResult resp)

/-- Source `UpdateNonZero`: project the entity to its non-zero fields;
an empty projection returns success with no store call. -/
def UpdateNonZero (c : CrudRepository) (filter : List (String × BVal))
    (entity : EntityShape) (resp : Option StoreErr) :
    List StoreOp × Except DomainErr Unit :=
  let data := getNonZeroFields entity
  if data = [] then ([], Except.ok ())
  else ([StoreOp.updateMany (buildFilter c filter) data], execResult resp)

/-- Source `UpdateNonZeroByID`: as `UpdateNonZero` with the id filter and
`UpdateOne`. -/
def UpdateNonZeroByID (c : CrudRepository) (id : Int)
    (entity : EntityShape) (resp : Option StoreErr) :
    List StoreOp × Except DomainErr Unit :=
  let data := getNonZeroFields entity
  if data = [] then ([], Except.ok ())
  else
    ([StoreOp.updateOne (buildFilter c [(c.idField, BVal.int id)]) data],
     execResult resp)

/-- Source `softDelete`: `Update` with the update document
`softDeleteField: now`, where `now` is `time.Now().Unix()` passed in
explicitly. -/
def softDelete (c : CrudRepository) (now : Int)
    (filter : List (String × BVal)) (resp : Option StoreErr) :
    List StoreOp × Except DomainErr Unit :=
  Update c filter [(c.softDeleteField, BVal.int now)] resp

/-- Source `Delete`: soft-delete branch when enabled and scoped,
otherwise `DeleteMany` on the caller's raw filter. -/
def Delete (c : CrudRepository) (now : Int)
    (filter : List (String × BVal)) (resp : Option StoreErr) :
    List StoreOp × Except DomainErr Unit :=
  if c.softDeleteEnabled && !c.unscoped then
    softDelete c now filter resp
  else
    ([StoreOp.deleteMany (rawFilter filter)], execResult resp)

/-- Source `DeleteByID`: the filter is `idField: id`; soft-delete branch
when enabled and scoped, otherwise `DeleteOne` on that raw filter. -/
def DeleteByID (c : CrudRepository) (now : Int) (id : Int)
    (resp : Option StoreErr) :
    List StoreOp × Except DomainErr Unit :=
  let filter := [(c.idField, BVal.int id)]
  if c.softDeleteEnabled && !c.unscoped then
    softDelete c now filter resp
  else
    ([StoreOp.deleteOne (rawFilter filter)], execResult resp)

/-- Source `DeleteByIDs`: an empty identifier slice returns success with
no store call; otherwise the filter is `idField $in ids`, with the soft
branch or `DeleteMany` on that raw filter. -/
def DeleteByIDs (c : CrudRepository) (now : Int) (ids : List Int)
    (resp : Option StoreErr) :
    List StoreOp × Except DomainErr Unit :=
  if ids = [] then ([], Except.ok ())
  else
    let filter := [(c.idField, BVal.inInts ids)]
    if c.softDeleteEnabled && !c.unscoped then
      softDelete c now filter resp
    else
      ([StoreOp.deleteMany (rawFilter filter)], execResult resp)

/-- Source `DeleteAll`: the empty filter, with the soft branch or
`DeleteMany`. -/
def DeleteAll (c : CrudRepository) (now : Int) (resp : Option StoreErr) :
    List StoreOp × Except DomainErr Unit :=
  let filter : List (String × BVal) := []
  if c.softDeleteEnabled && !c.unscoped then
    softDelete c now filter resp
  else
    ([StoreOp.deleteMany (rawFilter filter)], execResult resp)

/-- Source `DeleteAllByFilter`: soft-delete branch when enabled and
scoped, otherwise `DeleteMany` on the caller's raw filter. -/
def DeleteAllByFilter (c : CrudRepository) (now : Int)
    (filter : List (String × BVal)) (resp : Option StoreErr) :
    List StoreOp × Except DomainErr Unit :=
  if c.softDeleteEnabled && !c.unscoped then
    softDelete c now filter resp
  else
    ([StoreOp.deleteMany (rawFilter filter)], execResult resp)

/-! Concrete entity shapes, taken from the repository's own tests. -/

/-- The `User1` shape of the tests: custom bson tags on both the
identifier and the soft-delete attribute. -/
def user1Shape : EntityShape :=
  [ { name := "ID", bsonTag := "mongo_id", jsonTag := "id",
      value := BVal.int 1 },
    { name := "DeletedAt", bsonTag := "mongo_deleted_at",
      jsonTag := "deleted_at", value := BVal.int 0 } ]

/-- The repository value `NewCrudRepository` produces on `user1Shape`. -/
def repoUser1 : CrudRepository :=
  { collection := 0
    unscoped := false
    idField := "mongo_id"
    softDeleteField := "mongo_deleted_at"
    softDeleteEnabled := true }

/-- The `UserSoftDelete` shape of the tests: identifier tagged `_id`,
soft-delete attribute tagged `deleted_at`, plus a string field. -/
def userSoftDeleteShape : EntityShape :=
  [ { name := "ID", bsonTag := "_id", jsonTag := "id",
      value := BVal.int 7 },
    { name := "Name", bsonTag := "name", jsonTag := "name",
      value := BVal.str "test" },
    { name := "DeletedAt", bsonTag := "deleted_at",
      jsonTag := "deleted_at", value := BVal.int 0 } ]

/-- The repository value produced on `userSoftDeleteShape`. -/
def repoUserSoftDelete : CrudRepository :=
  { collection := 0
    unscoped := false
    idField := "_id"
    softDeleteField := "deleted_at"
    softDeleteEnabled := true }

/-- Unfolding of `resolveTag` into the annotation-then-fallback chain:
bson tag name if the bson tag is present, else json tag name if present,
else the default. -/
theorem resolveTag_eq (b j d : String) :
    resolveTag b j d =
      if b ≠ "" then firstCommaComponent b
      else if j ≠ "" then firstCommaComponent j
      else d := by
  unfold resolveTag
  by_cases hb : b = "" <;> by_cases hj : j = "" <;> simp [hb, hj]

/-- Claim C1: the claim states that the disjunctive clause appended by
`buildFilter` constrains the resolved soft-delete storage field, i.e.
the value of `SoftDeleteField()`.  On the `User1` shape of the
repository's own tests the resolved field is `mongo_deleted_at`, yet
`buildFilter` appends the clause on the literal field name
`deleted_at` (hardcoded in the source), so a document stamped by
`softDelete` at `mongo_deleted_at` still satisfies the scoped
visibility filter. -/
theorem buildFilter_hardcodes_deleted_at :
    NewCrudRepository 0 user1Shape = some repoUser1 ∧
    SoftDeleteField repoUser1 = "mongo_deleted_at" ∧
    SoftDeleteEnabled repoUser1 = true ∧
    IsUnscoped repoUser1 = false ∧
    buildFilter repoUser1 [("name", BVal.str "x")] =
      [FilterEntry.entry "name" (BVal.str "x"),
       FilterEntry.orSoftDelete "deleted_at"] ∧
    SoftDeleteField repoUser1 ≠ "deleted_at" ∧
    matchFilter [("mongo_deleted_at", BVal.int 5)]
      (buildFilter repoUser1 []) = true := by
  refine ⟨?_, ?_, ?_, ?_, ?_, ?_, ?_⟩ <;> decide

/-- Claim C7: `Unscoped` returns a new handle whose scope flag is set
and whose other fields equal the receiver's, while the receiver keeps
its own scope flag; a repository coming out of `NewCrudRepository` is
scoped. -/
theorem Unscoped_returns_fresh_handle (r : CrudRepository) :
    IsUnscoped (Unscoped r) = true ∧
    (Unscoped r).idField = r.idField ∧
    (Unscoped r).softDeleteField = r.softDeleteField ∧
    (Unscoped r).softDeleteEnabled = r.softDeleteEnabled ∧
    (Unscoped r).collection = r.collection ∧
    IsUnscoped r = r.unscoped ∧
    (∀ shape coll, NewCrudRepository coll shape = some r →
      IsUnscoped r = false) := by
  refine ⟨rfl, rfl, rfl, rfl, rfl, rfl, ?_⟩
  intro shape coll h
  cases hid : getIDField shape with
  | none => simp [NewCrudRepository, hid] at h
  | some idf =>
    simp only [NewCrudRepository, hid, Option.some.injEq] at h
    rw [← h]
    rfl

/-- Witness for C7 at the `User1` shape. -/
theorem Unscoped_returns_fresh_handle_witness :
    IsUnscoped (Unscoped repoUser1) = true ∧ IsUnscoped repoUser1 = false :=
  ⟨(Unscoped_returns_fresh_handle repoUser1).1,
   (Unscoped_returns_fresh_handle repoUser1).2.2.2.2.2.2 user1Shape 0
     (by decide)⟩

/-- Claim C5: identifier resolution locates the attribute named `ID`
first, else `Id`; with neither, construction returns no repository
value; the resolved storage name is the bson tag name when a bson tag
is present, else the json tag name when present, else `_id`. -/
theorem id_resolution (shape : EntityShape) (coll : Nat) :
    (fieldByName shape "ID" = none → fieldByName shape "Id" = none →
      NewCrudRepository coll shape = none) ∧
    (∀ f, fieldByName shape "ID" = some f →
      ∃ r, NewCrudRepository coll shape = some r ∧
        r.idField =
          (if f.bsonTag ≠ "" then firstCommaComponent f.bsonTag
           else if f.jsonTag ≠ "" then firstCommaComponent f.jsonTag
           else "_id")) ∧
    (∀ f, fieldByName shape "ID" = none → fieldByName shape "Id" = some f →
      ∃ r, NewCrudRepository coll shape = some r ∧
        r.idField =
          (if f.bsonTag ≠ "" then firstCommaComponent f.bsonTag
           else if f.jsonTag ≠ "" then firstCommaComponent f.jsonTag
           else "_id")) := by
  refine ⟨?_, ?_, ?_⟩
  · intro h1 h2
    simp [NewCrudRepository, getIDField, h1, h2]
  · intro f hf
    have hg : getIDField shape = some (resolveTag f.bsonTag f.jsonTag "_id") := by
      simp [getIDField, hf]
    refine ⟨{ collection := coll
              unscoped := false
              idField := resolveTag f.bsonTag f.jsonTag "_id"
              softDeleteField := getDeletedAtField shape
              softDeleteEnabled := getDeletedAtField shape != "" },
            ?_, resolveTag_eq f.bsonTag f.jsonTag "_id"⟩
    simp [NewCrudRepository, hg]
  · intro f h1 hf
    have hg : getIDField shape = some (resolveTag f.bsonTag f.jsonTag "_id") := by
      simp [getIDField, h1, hf]
    refine ⟨{ collection := coll
              unscoped := false
              idField := resolveTag f.bsonTag f.jsonTag "_id"
              softDeleteField := getDeletedAtField shape
              softDeleteEnabled := getDeletedAtField shape != "" },
            ?_, resolveTag_eq f.bsonTag f.jsonTag "_id"⟩
    simp [NewCrudRepository, hg]

/-- Witness for C5 at the `User1` shape: the `ID` attribute wins and its
bson tag name `mongo_id` is the resolved storage name. -/
theorem id_resolution_witness :
    ∃ r, NewCrudRepository 0 user1Shape = some r ∧
      r.idField = "mongo_id" := by
  obtain ⟨r, hr, hid⟩ := (id_resolution user1Shape 0).2.1
    { name := "ID", bsonTag := "mongo_id", jsonTag := "id",
      value := BVal.int 1 }
    (by decide)
  refine ⟨r, hr, ?_⟩
  rw [hid]
  decide

/-- An entity shape whose `DeletedAt` attribute carries the struct tag
`bson:",omitempty"`: the tag is present but its name component (the
part before the first comma) is empty. -/
def omitemptyShape : EntityShape :=
  [ { name := "ID", bsonTag := "", jsonTag := "", value := BVal.int 1 },
    { name := "DeletedAt", bsonTag := ",omitempty", jsonTag := "",
      value := BVal.int 0 } ]

/-- Claim C6, counterexample: on a shape that does declare a `DeletedAt`
attribute, but tagged `bson:",omitempty"`, `getDeletedAtField` returns
the empty string, so the constructed repository has
`SoftDeleteEnabled() = false` — the claim asserts it is true for every
shape declaring `DeletedAt`. -/
theorem softdelete_enabled_counterexample :
    (fieldByName omitemptyShape "DeletedAt").isSome = true ∧
    NewCrudRepository 0 omitemptyShape =
      some { collection := 0
             unscoped := false
             idField := "_id"
             softDeleteField := ""
             softDeleteEnabled := false } := by
  refine ⟨?_, ?_⟩ <;> decide

/-- Claim C6 as amended: for every constructed repository, if the shape
has no `DeletedAt` attribute then the soft-delete field is empty and
the feature disabled; if it has one, the soft-delete field is the
annotation-then-fallback storage name and, whenever that name is
nonempty, the feature is enabled; the invariant
`SoftDeleteEnabled == (SoftDeleteField != "")` holds for the
constructed repository and is preserved by `clone` and `Unscoped`. -/
theorem softdelete_resolution_amended (shape : EntityShape) (coll : Nat)
    (r : CrudRepository) (h : NewCrudRepository coll shape = some r) :
    (fieldByName shape "DeletedAt" = none →
      SoftDeleteField r = "" ∧ SoftDeleteEnabled r = false) ∧
    (∀ f, fieldByName shape "DeletedAt" = some f →
      SoftDeleteField r =
        (if f.bsonTag ≠ "" then firstCommaComponent f.bsonTag
         else if f.jsonTag ≠ "" then firstCommaComponent f.jsonTag
         else "deleted_at") ∧
      (SoftDeleteField r ≠ "" → SoftDeleteEnabled r = true)) ∧
    SoftDeleteEnabled r = (SoftDeleteField r != "") ∧
    (∀ s : CrudRepository,
      SoftDeleteField (clone s) = SoftDeleteField s ∧
      SoftDeleteEnabled (clone s) = SoftDeleteEnabled s ∧
      SoftDeleteField (Unscoped s) = SoftDeleteField s ∧
      SoftDeleteEnabled (Unscoped s) = SoftDeleteEnabled s) := by
  have hsd : SoftDeleteField r = getDeletedAtField shape ∧
      SoftDeleteEnabled r = (getDeletedAtField shape != "") := by
    cases hid : getIDField shape with
    | none => simp [NewCrudRepository, hid] at h
    | some idf =>
      simp only [NewCrudRepository, hid, Option.some.injEq] at h
      rw [← h]
      exact ⟨rfl, rfl⟩
  refine ⟨?_, ?_, ?_, ?_⟩
  · intro hnone
    have hfield : getDeletedAtField shape = "" := by
      simp [getDeletedAtField, hnone]
    refine ⟨hsd.1.trans hfield, ?_⟩
    rw [hsd.2, hfield]
    decide
  · intro f hf
    have hfield : getDeletedAtField shape = resolveTag f.bsonTag f.jsonTag "deleted_at" := by
      simp [getDeletedAtField, hf]
    refine ⟨hsd.1.trans (hfield.trans (resolveTag_eq f.bsonTag f.jsonTag "deleted_at")), ?_⟩
    intro hne
    rw [hsd.2, ← hsd.1]
    simpa using hne
  · rw [hsd.2, hsd.1]
  · intro s
    exact ⟨rfl, rfl, rfl, rfl⟩

/-- Witness for the amended C6 at the `User1` shape. -/
theorem softdelete_resolution_amended_witness :
    SoftDeleteEnabled repoUser1 = (SoftDeleteField repoUser1 != "") :=
  (softdelete_resolution_amended user1Shape 0 repoUser1 (by decide)).2.2.1

/-- Claim C2: with soft delete enabled and the repository scoped,
`Delete`, `DeleteByID`, `DeleteByIDs` (on a nonempty slice),
`DeleteAll` and `DeleteAllByFilter` each issue a field-set update
stamping the resolved soft-delete field with the current epoch-second
time, and no removal op; with soft delete disabled or the repository
unscoped, each issues a genuine document removal. -/
theorem delete_soft_or_hard (c : CrudRepository) (now id : Int)
    (ids : List Int) (filter : List (String × BVal))
    (resp : Option StoreErr) (hids : ids ≠ []) :
    (c.softDeleteEnabled = true → c.unscoped = false →
      (Delete c now filter resp).1 =
        [StoreOp.updateMany (buildFilter c filter)
          [(c.softDeleteField, BVal.int now)]] ∧
      (DeleteByID c now id resp).1 =
        [StoreOp.updateMany (buildFilter c [(c.idField, BVal.int id)])
          [(c.softDeleteField, BVal.int now)]] ∧
      (DeleteByIDs c now ids resp).1 =
        [StoreOp.updateMany (buildFilter c [(c.idField, BVal.inInts ids)])
          [(c.softDeleteField, BVal.int now)]] ∧
      (DeleteAll c now resp).1 =
        [StoreOp.updateMany (buildFilter c [])
          [(c.softDeleteField, BVal.int now)]] ∧
      (DeleteAllByFilter c now filter resp).1 =
        [StoreOp.updateMany (buildFilter c filter)
          [(c.softDeleteField, BVal.int now)]]) ∧
    (c.softDeleteEnabled = false ∨ c.unscoped = true →
      (Delete c now filter resp).1 =
        [StoreOp.deleteMany (rawFilter filter)] ∧
      (DeleteByID c now id resp).1 =
        [StoreOp.deleteOne (rawFilter [(c.idField, BVal.int id)])] ∧
      (DeleteByIDs c now ids resp).1 =
        [StoreOp.deleteMany (rawFilter [(c.idField, BVal.inInts ids)])] ∧
      (DeleteAll c now resp).1 = [StoreOp.deleteMany (rawFilter [])] ∧
      (DeleteAllByFilter c now filter resp).1 =
        [StoreOp.deleteMany (rawFilter filter)]) := by
  constructor
  · intro h1 h2
    refine ⟨?_, ?_, ?_, ?_, ?_⟩ <;>
      simp [Delete, DeleteByID, DeleteByIDs, DeleteAll, DeleteAllByFilter,
        softDelete, Update, h1, h2, hids]
  · intro h
    rcases h with h | h <;>
      refine ⟨?_, ?_, ?_, ?_, ?_⟩ <;>
        simp [Delete, DeleteByID, DeleteByIDs, DeleteAll, DeleteAllByFilter,
          h, hids]

/-- Witness for C2: on the scoped soft-delete test repository, `Delete`
issues the stamping update. -/
theorem delete_soft_or_hard_witness :
    (Delete repoUserSoftDelete 9 [] none).1 =
      [StoreOp.updateMany (buildFilter repoUserSoftDelete [])
        [(repoUserSoftDelete.softDeleteField, BVal.int 9)]] :=
  ((delete_soft_or_hard repoUserSoftDelete 9 1 [2] [] none
      (by decide)).1 rfl rfl).1

/-- Claim C3: on the physical-delete branch (soft delete disabled, or
repository unscoped), `Delete` and `DeleteAllByFilter` pass the
caller's raw filter to the store's delete-many call: the op's filter
consists of exactly the caller's pairs, and no soft-delete visibility
clause occurs in it. -/
theorem physical_delete_uses_raw_filter (c : CrudRepository) (now : Int)
    (filter : List (String × BVal)) (resp : Option StoreErr)
    (h : c.softDeleteEnabled = false ∨ c.unscoped = true) :
    (Delete c now filter resp).1 =
      [StoreOp.deleteMany (rawFilter filter)] ∧
    (DeleteAllByFilter c now filter resp).1 =
      [StoreOp.deleteMany (rawFilter filter)] ∧
    rawFilter filter = filter.map (fun kv => FilterEntry.entry kv.1 kv.2) ∧
    (∀ f, FilterEntry.orSoftDelete f ∉ rawFilter filter) := by
  refine ⟨?_, ?_, rfl, ?_⟩
  · rcases h with h | h <;> simp [Delete, h]
  · rcases h with h | h <;> simp [DeleteAllByFilter, h]
  · intro f hf
    simp only [rawFilter, List.mem_map] at hf
    obtain ⟨kv, -, hkv⟩ := hf
    exact FilterEntry.noConfusion hkv

/-- Witness for C3: an unscoped handle of the soft-delete test
repository hard-deletes with exactly the caller's filter. -/
theorem physical_delete_uses_raw_filter_witness :
    (Delete (Unscoped repoUserSoftDelete) 9 [("name", BVal.str "a")] none).1 =
      [StoreOp.deleteMany (rawFilter [("name", BVal.str "a")])] :=
  (physical_delete_uses_raw_filter (Unscoped repoUserSoftDelete) 9
    [("name", BVal.str "a")] none (Or.inr rfl)).1

/-- Claim C9: on the empty identifier slice, `FindByIDs` returns an
empty collection, `ExistsByIDs` an empty dict and `DeleteByIDs`
success, each with no error and no store op, whatever the store's
response would have been. -/
theorem empty_ids_no_io (c : CrudRepository) (now : Int)
    (respF respE : Except StoreErr (List Doc)) (respD : Option StoreErr) :
    FindByIDs c [] respF = ([], Except.ok []) ∧
    ExistsByIDs c [] respE = ([], Except.ok []) ∧
    DeleteByIDs c now [] respD = ([], Except.ok ()) := by
  refine ⟨?_, ?_, ?_⟩ <;> simp [FindByIDs, ExistsByIDs, DeleteByIDs]

/-- Claim C4: error normalization.  A no-documents store error becomes
the `NotFound` domain error in `FindOne` and `FindByID`, and the result
`false` with no error in `Exists` and `ExistsByID`; a duplicate-key
store error on insert becomes the `DuplicatedKey` domain error in
`Create`; any other store failure comes back as a generic wrapped
error, and every domain error keeps its underlying cause reachable for
error-identity checks. -/
theorem error_normalization (c : CrudRepository)
    (filter : List (String × BVal)) (id : Int) (entity : Doc)
    (e : StoreErr) :
    (FindOne c filter (Except.error StoreErr.noDocuments)).2 =
      Except.error (DomainErr.notFound StoreErr.noDocuments) ∧
    (FindByID c id (Except.error StoreErr.noDocuments)).2 =
      Except.error (DomainErr.notFound StoreErr.noDocuments) ∧
    (Create c entity (Except.error StoreErr.duplicateKey)).2 =
      Except.error (DomainErr.duplicatedKey StoreErr.duplicateKey) ∧
    (Exists c filter (some StoreErr.noDocuments)).2 = Except.ok false ∧
    (ExistsByID c id (some StoreErr.noDocuments)).2 = Except.ok false ∧
    (e ≠ StoreErr.noDocuments →
      (FindOne c filter (Except.error e)).2 =
        Except.error (DomainErr.wrapped e) ∧
      (FindByID c id (Except.error e)).2 =
        Except.error (DomainErr.wrapped e) ∧
      (Exists c filter (some e)).2 =
        Except.error (DomainErr.wrapped e) ∧
      (ExistsByID c id (some e)).2 =
        Except.error (DomainErr.wrapped e)) ∧
    (e ≠ StoreErr.duplicateKey →
      (Create c entity (Except.error e)).2 =
        Except.error (DomainErr.wrapped e)) ∧
    causeOf (DomainErr.wrapped e) = e ∧
    causeOf (DomainErr.notFound e) = e ∧
    causeOf (DomainErr.duplicatedKey e) = e := by
  refine ⟨rfl, rfl, rfl, rfl, rfl, ?_, ?_, rfl, rfl, rfl⟩
  · intro h
    refine ⟨?_, ?_, ?_, ?_⟩ <;>
      simp [FindOne, FindByID, Exists, ExistsByID, h]
  · intro h
    simp [Create, h]

/-- Witness for C4 with the generic failure instantiated at a store
error that is neither a no-documents nor a duplicate-key signal. -/
theorem error_normalization_witness :
    (FindOne repoUser1 [] (Except.error (StoreErr.other 3))).2 =
      Except.error (DomainErr.wrapped (StoreErr.other 3)) ∧
    (Create repoUser1 [] (Except.error (StoreErr.other 3))).2 =
      Except.error (DomainErr.wrapped (StoreErr.other 3)) :=
  ⟨((error_normalization repoUser1 [] 1 [] (StoreErr.other 3)).2.2.2.2.2.1
      (by decide)).1,
   (error_normalization repoUser1 [] 1 [] (StoreErr.other 3)).2.2.2.2.2.2.1
     (by decide)⟩

/-- Reading a cons cell: the head's key answers first. -/
theorem lookupKV_cons (a : String) (b : BVal)
    (rest : List (String × BVal)) (k : String) :
    lookupKV ((a, b) :: rest) k =
      if a = k then some b else lookupKV rest k := by
  by_cases h : a = k
  · rw [lookupKV, List.find?_cons_of_pos _ (by simpa using h), if_pos h]
    rfl
  · rw [lookupKV, List.find?_cons_of_neg _ (by simpa using h), if_neg h]
    rfl

/-- Assigning a key and reading it back yields the assigned value. -/
theorem lookupKV_upsert_self (l : List (String × BVal)) (k : String)
    (v : BVal) : lookupKV (upsert l k v) k = some v := by
  induction l with
  | nil => simp [upsert, lookupKV_cons]
  | cons kv rest ih =>
    obtain ⟨a, b⟩ := kv
    by_cases hk : a = k
    · rw [upsert, if_pos hk, lookupKV_cons, if_pos rfl]
    · rw [upsert, if_neg hk, lookupKV_cons, if_neg hk]
      exact ih

/-- Assigning a key leaves every other key's value unchanged. -/
theorem lookupKV_upsert_ne (l : List (String × BVal)) (k k' : String)
    (v : BVal) (h : k' ≠ k) :
    lookupKV (upsert l k v) k' = lookupKV l k' := by
  induction l with
  | nil =>
    rw [upsert, lookupKV_cons, if_neg (Ne.symm h)]
  | cons kv rest ih =>
    obtain ⟨a, b⟩ := kv
    by_cases hk : a = k
    · rw [upsert, if_pos hk, lookupKV_cons, lookupKV_cons,
        if_neg (Ne.symm h)]
      rw [if_neg (hk ▸ Ne.symm h)]
    · rw [upsert, if_neg hk, lookupKV_cons, lookupKV_cons]
      by_cases hk' : a = k'
      · rw [if_pos hk', if_pos hk']
      · rw [if_neg hk', if_neg hk']
        exact ih

/-- Any binding found in the projection under construction either was in
the accumulator already or comes from a non-zero field of the list. -/
theorem lookupKV_foldl_some (fields : EntityShape) :
    ∀ (acc : List (String × BVal)) (k : String) (v : BVal),
      lookupKV (fields.foldl insertNonZero acc) k = some v →
      lookupKV acc k = some v ∨
        ∃ f ∈ fields, isZeroVal f.value = false ∧
          fieldStorageName f = k ∧ f.value = v := by
  induction fields with
  | nil =>
    intro acc k v h
    exact Or.inl h
  | cons f fs ih =>
    intro acc k v h
    rw [List.foldl_cons] at h
    rcases ih (insertNonZero acc f) k v h with h' | ⟨g, hg, hgz, hgk, hgv⟩
    · cases hz : isZeroVal f.value with
      | true =>
        left
        simpa [insertNonZero, hz] using h'
      | false =>
        by_cases hk : fieldStorageName f = k
        · right
          refine ⟨f, List.mem_cons_self f fs, hz, hk, ?_⟩
          rw [insertNonZero, hz] at h'
          simp only [Bool.not_false, if_pos] at h'
          rw [hk, lookupKV_upsert_self] at h'
          exact Option.some.inj h'
        · left
          rw [insertNonZero, hz] at h'
          simp only [Bool.not_false, if_pos] at h'
          rwa [lookupKV_upsert_ne acc (fieldStorageName f) k f.value
            (fun he => hk he.symm)] at h'
    · exact Or.inr ⟨g, List.mem_cons_of_mem f hg, hgz, hgk, hgv⟩

/-- A key present in the accumulator stays present through the fold. -/
theorem lookupKV_foldl_isSome (fields : EntityShape) :
    ∀ (acc : List (String × BVal)) (k : String),
      (lookupKV acc k).isSome = true →
      (lookupKV (fields.foldl insertNonZero acc) k).isSome = true := by
  induction fields with
  | nil =>
    intro acc k h
    exact h
  | cons f fs ih =>
    intro acc k h
    rw [List.foldl_cons]
    apply ih
    cases hz : isZeroVal f.value with
    | true => simpa [insertNonZero, hz] using h
    | false =>
      rw [insertNonZero, hz]
      simp only [Bool.not_false, if_pos]
      by_cases hk : fieldStorageName f = k
      · rw [hk, lookupKV_upsert_self]
        rfl
      · rwa [lookupKV_upsert_ne acc (fieldStorageName f) k f.value
          (fun he => hk he.symm)]

/-- Every non-zero field of the list ends up with its storage key bound
in the projection. -/
theorem lookupKV_foldl_mem (fields : EntityShape) :
    ∀ (acc : List (String × BVal)) (f : StructField), f ∈ fields →
      isZeroVal f.value = false →
      (lookupKV (fields.foldl insertNonZero acc)
        (fieldStorageName f)).isSome = true := by
  induction fields with
  | nil =>
    intro acc f h
    cases h
  | cons g gs ih =>
    intro acc f hf hz
    rw [List.foldl_cons]
    rcases List.mem_cons.mp hf with rfl | hf'
    · apply lookupKV_foldl_isSome
      rw [insertNonZero, hz]
      simp only [Bool.not_false, if_pos]
      rw [lookupKV_upsert_self]
      rfl
    · exact ih (insertNonZero acc g) f hf' hz

/-- Folding fields that are all zero never touches the accumulator. -/
theorem foldl_insertNonZero_all_zero (fields : EntityShape) :
    ∀ acc : List (String × BVal),
      (∀ f ∈ fields, isZeroVal f.value = true) →
      fields.foldl insertNonZero acc = acc := by
  induction fields with
  | nil =>
    intro acc h
    rfl
  | cons f fs ih =>
    intro acc h
    rw [List.foldl_cons, insertNonZero, h f (List.mem_cons_self f fs)]
    simp only [Bool.not_true, Bool.false_eq_true, if_false]
    exact ih acc (fun g hg => h g (List.mem_cons_of_mem f hg))

/-- The projection is empty exactly when every field's value is zero. -/
theorem getNonZeroFields_eq_nil_iff (fields : EntityShape) :
    getNonZeroFields fields = [] ↔
      ∀ f ∈ fields, isZeroVal f.value = true := by
  constructor
  · intro h f hf
    by_contra hz
    have hz' : isZeroVal f.value = false := by
      cases hzz : isZeroVal f.value with
      | true => exact absurd hzz hz
      | false => rfl
    have hmem := lookupKV_foldl_mem fields [] f hf hz'
    rw [getNonZeroFields] at h
    rw [h] at hmem
    simp [lookupKV] at hmem
  · intro h
    exact foldl_insertNonZero_all_zero fields [] h

/-- Claim C8: `UpdateNonZero` and `UpdateNonZeroByID` first project the
entity to its non-zero attributes keyed by the annotation-then-fallback
storage name; an empty projection returns success with no store op;
otherwise the single update op carries exactly that projection: the
projection is empty precisely when every attribute is zero, every
binding in it is the value of a non-zero attribute under its storage
name, and every non-zero attribute's storage name is bound in it. -/
theorem update_nonzero_projection (c : CrudRepository)
    (filter : List (String × BVal)) (id : Int) (entity : EntityShape)
    (resp : Option StoreErr) :
    (getNonZeroFields entity = [] ↔
      ∀ f ∈ entity, isZeroVal f.value = true) ∧
    (getNonZeroFields entity = [] →
      UpdateNonZero c filter entity resp = ([], Except.ok ()) ∧
      UpdateNonZeroByID c id entity resp = ([], Except.ok ())) ∧
    (getNonZeroFields entity ≠ [] →
      (UpdateNonZero c filter entity resp).1 =
        [StoreOp.updateMany (buildFilter c filter)
          (getNonZeroFields entity)] ∧
      (UpdateNonZeroByID c id entity resp).1 =
        [StoreOp.updateOne (buildFilter c [(c.idField, BVal.int id)])
          (getNonZeroFields entity)]) ∧
    (∀ k v, lookupKV (getNonZeroFields entity) k = some v →
      ∃ f ∈ entity, isZeroVal f.value = false ∧
        fieldStorageName f = k ∧ f.value = v) ∧
    (∀ f ∈ entity, isZeroVal f.value = false →
      (lookupKV (getNonZeroFields entity)
        (fieldStorageName f)).isSome = true) := by
  refine ⟨getNonZeroFields_eq_nil_iff entity, ?_, ?_, ?_, ?_⟩
  · intro h
    constructor <;> simp [UpdateNonZero, UpdateNonZeroByID, h]
  · intro h
    constructor <;> simp [UpdateNonZero, UpdateNonZeroByID, h]
  · intro k v h
    rcases lookupKV_foldl_some entity [] k v h with h' | h'
    · simp [lookupKV] at h'
    · exact h'
  · intro f hf hz
    exact lookupKV_foldl_mem entity [] f hf hz

/-- Witness for C8 at the `UserSoftDelete` test instance, whose `ID` and
`Name` are non-zero and whose `DeletedAt` is zero: the projection is
nonempty and a single update op carries it. -/
theorem update_nonzero_projection_witness :
    (UpdateNonZero repoUserSoftDelete [] userSoftDeleteShape none).1 =
      [StoreOp.updateMany (buildFilter repoUserSoftDelete [])
        (getNonZeroFields userSoftDeleteShape)] :=
  ((update_nonzero_projection repoUserSoftDelete [] 7 userSoftDeleteShape
      none).2.2.1 (by decide)).1

/-- Claim C10, counterexample: on the `User1` shape the resolved
soft-delete field is `mongo_deleted_at`; the stamping update issued by
a scoped `Delete` filters on the literal name `deleted_at`, so a
document whose soft-delete field already holds the non-zero value `5`
still matches the stamping update's predicate and its deletion
timestamp is overwritten to `9` by the second scoped delete. -/
theorem soft_delete_stamp_counterexample :
    (Delete repoUser1 9 [] none).1 =
      [StoreOp.updateMany [FilterEntry.orSoftDelete "deleted_at"]
        [("mongo_deleted_at", BVal.int 9)]] ∧
    matchFilter [("mongo_deleted_at", BVal.int 5)]
      [FilterEntry.orSoftDelete "deleted_at"] = true ∧
    updateDoc [("mongo_deleted_at", BVal.int 5)]
      [FilterEntry.orSoftDelete "deleted_at"]
      [("mongo_deleted_at", BVal.int 9)] =
      [("mongo_deleted_at", BVal.int 9)] := by
  refine ⟨?_, ?_, ?_⟩ <;> decide

/-- Claim C10 as amended: when the resolved soft-delete field is the
name `deleted_at` itself, the stamping update of a scoped delete passes
its filter through the scoped filter builder, whose appended clause
rejects every document with a non-zero `deleted_at`; such a document is
left unchanged, so a deletion timestamp, once set, is never overwritten
by a subsequent scoped delete. -/
theorem soft_delete_no_overwrite (c : CrudRepository) (now v : Int)
    (filter : List (String × BVal)) (resp : Option StoreErr) (doc : Doc)
    (henabled : c.softDeleteEnabled = true) (hscoped : c.unscoped = false)
    (hfield : c.softDeleteField = "deleted_at")
    (hv : lookupKV doc c.softDeleteField = some (BVal.int v))
    (hnz : v ≠ 0) :
    (softDelete c now filter resp).1 =
      [StoreOp.updateMany (buildFilter c filter)
        [(c.softDeleteField, BVal.int now)]] ∧
    (Delete c now filter resp).1 = (softDelete c now filter resp).1 ∧
    matchFilter doc (buildFilter c filter) = false ∧
    updateDoc doc (buildFilter c filter)
      [(c.softDeleteField, BVal.int now)] = doc := by
  have hclause : matchEntry doc (FilterEntry.orSoftDelete "deleted_at") = false := by
    rw [hfield] at hv
    simp [matchEntry, hv, hnz]
  have hmatch : matchFilter doc (buildFilter c filter) = false := by
    rw [buildFilter]
    simp only [henabled, hscoped, Bool.not_false, Bool.and_self, if_pos]
    rw [matchFilter, List.all_append]
    simp [hclause]
  refine ⟨rfl, ?_, hmatch, ?_⟩
  · simp [Delete, henabled, hscoped]
  · rw [updateDoc, hmatch]
    simp

/-- Witness for the amended C10 at the `UserSoftDelete` repository: a
document already stamped with `deleted_at = 5` is unchanged by the
stamping update of a later scoped delete. -/
theorem soft_delete_no_overwrite_witness :
    updateDoc [("deleted_at", BVal.int 5)]
      (buildFilter repoUserSoftDelete [])
      [(repoUserSoftDelete.softDeleteField, BVal.int 9)] =
      [("deleted_at", BVal.int 5)] :=
  (soft_delete_no_overwrite repoUserSoftDelete 9 5 [] none
    [("deleted_at", BVal.int 5)] rfl rfl rfl (by decide) (by decide)).2.2.2

end RepositoryMongo
